import Mathlib

/-
Verification of the FacultyAttendenceTracking attendance-to-payroll core.

Shallow embedding of:
  * src/components/MonthlyActions.tsx   (monthly casual-leave allocation)
  * src/hooks/useLeaveApprovalData.ts   (approve / reject leave workflow)
  * src/unnamed/part_000                (useFacultyDetailData.deleteLeave)
  * src/hooks/useFacultyData.ts         (useSummaryData: calculateSummary,
                                         finalizeAndDeductCLs)

The Firebase realtime-database collections are modelled as association
lists (unique keys, as Firebase object children are); a multi-path
`update(ref(db), updates)` is one application of `applyUpdates` to the
whole database value.  Monetary amounts are exact rationals.  Dates appear
in two forms, as in the source: "YYYY-MM-DD" strings filtered by
`String.startsWith month` in the aggregation code, and UTC day numbers in
the leave workflow, where the code's `Date.UTC`-normalised while-loop
advances by exactly one calendar day per step (ISO date strings are in
order-preserving bijection with UTC day numbers).
-/

/-- Generic association-list lookup: first entry with the given key
(mirrors reading a keyed child in the record store). -/
def lookupK {κ α : Type} [BEq κ] (l : List (κ × α)) (k : κ) : Option α :=
  (l.find? (fun p => p.1 == k)).map (·.2)

/-- Replace-or-append at a key (mirrors `set`/`update` on a child path:
the path is created when absent, overwritten when present). -/
def setAssoc {κ α : Type} [BEq κ] (l : List (κ × α)) (k : κ) (v : α) : List (κ × α) :=
  match l with
  | [] => [(k, v)]
  | p :: t => if p.1 == k then (p.1, v) :: t else p :: setAssoc t k v

/-- Character-list version of the textual begins-with test. -/
def charsBegin : List Char → List Char → Bool
  | _, [] => true
  | [], _ :: _ => false
  | c :: cs, p :: ps => c == p && charsBegin cs ps

/-- `beginsWith s p` models JavaScript `s.startsWith(p)`, used by the
source to test whether a "YYYY-MM-DD" date key falls in a "YYYY-MM"
month. -/
def beginsWith (s p : String) : Bool := charsBegin s.toList p.toList

/-- Attendance status enum from src/types (values "On-Time", "Late",
"Absent", "On-Duty"). -/
inductive AttendanceStatus
  | onTime
  | late
  | absent
  | onDuty
deriving DecidableEq, Repr

/-! ### Helper lemmas about the association-list store -/

theorem lookupK_cons {κ α : Type} [BEq κ] (a : κ) (b : α) (t : List (κ × α)) (j : κ) :
    lookupK ((a, b) :: t) j = if a == j then some b else lookupK t j := by
  by_cases h : a == j <;> simp [lookupK, List.find?, h]

theorem lookupK_map_keyed {κ α : Type} [BEq κ] [LawfulBEq κ]
    (g : κ → α → α) (j : κ) :
    ∀ l : List (κ × α),
      lookupK (l.map (fun p => (p.1, g p.1 p.2))) j = (lookupK l j).map (g j) := by
  intro l
  induction l with
  | nil => simp [lookupK]
  | cons p t ih =>
    obtain ⟨a, b⟩ := p
    by_cases h : a == j
    · have haj : a = j := by simpa using h
      simp [List.map_cons, lookupK_cons, h, haj]
    · simp [List.map_cons, lookupK_cons, h, ih]

theorem lookupK_setAssoc_self {κ α : Type} [BEq κ] [LawfulBEq κ]
    (k : κ) (v : α) : ∀ l : List (κ × α),
    lookupK (setAssoc l k v) k = some v := by
  intro l
  induction l with
  | nil => simp [setAssoc, lookupK_cons]
  | cons p t ih =>
    obtain ⟨a, b⟩ := p
    by_cases h : a == k
    · simp [setAssoc, h, lookupK_cons]
    · simp [setAssoc, h, lookupK_cons, ih]

theorem lookupK_setAssoc_other {κ α : Type} [BEq κ] [LawfulBEq κ]
    (k j : κ) (v : α) (hjk : j ≠ k) : ∀ l : List (κ × α),
    lookupK (setAssoc l k v) j = lookupK l j := by
  intro l
  induction l with
  | nil =>
    have : ¬ (k == j) := by simpa using fun hkj => hjk hkj.symm
    simp [setAssoc, lookupK_cons, this, lookupK]
  | cons p t ih =>
    obtain ⟨a, b⟩ := p
    by_cases h : a == k
    · have hak : a = k := by simpa using h
      have : ¬ (a == j) := by
        simp only [beq_iff_eq, hak]
        exact fun hkj => hjk hkj.symm
      simp [setAssoc, h, lookupK_cons, this]
    · by_cases haj : a == j
      · simp [setAssoc, h, lookupK_cons, haj]
      · simp [setAssoc, h, lookupK_cons, haj, ih]

/-! ### Monthly casual-leave allocation (src/components/MonthlyActions.tsx) -/

/-- The record written at `monthlyAllocations/{month}` by `handleAllocateCL`
step 5 (`{completed, timestamp, updatedCount}`). -/
structure AllocationMarker where
  completed : Bool
  timestamp : String
  updatedCount : Nat
deriving DecidableEq, Repr

/-- Database state read and written by MonthlyActions.  `faculty` maps
`empId` to the `casualLeaves` balance (the only faculty field this
component reads or writes); `attendance` maps `empId` to its
`records` child, a map from "YYYY-MM-DD" date keys to the record's
status (the only record field the allocation reads). -/
structure AllocState where
  faculty : List (Nat × Nat)
  attendance : List (Nat × List (String × AttendanceStatus))
  monthlyAllocations : List (String × AllocationMarker)
deriving DecidableEq, Repr

/-- The `checkStatus` effect (MonthlyActions.tsx lines 23-44):
`allocationSnap.exists() && allocationSnap.val().completed`. -/
def checkStatus (m : String) (st : AllocState) : Bool :=
  match lookupK st.monthlyAllocations m with
  | some a => a.completed
  | none => false

/-- Membership of an employee in the `facultyWithAbsences` set built in
`handleAllocateCL` step 2: some attendance entry for this employee has a
record whose date starts with the selected month and whose status is
Absent. -/
def hasAbsence (att : List (Nat × List (String × AttendanceStatus)))
    (m : String) (e : Nat) : Bool :=
  att.any (fun p =>
    p.1 == e && p.2.any (fun r => beginsWith r.1 m && r.2 == AttendanceStatus.absent))

/-- Failure feedback of `handleAllocateCL`: the early return with
"This action has already been completed for the selected month.", and the
thrown "No faculty data found.". -/
inductive AllocError
  | alreadyCompleted
  | noFaculty
deriving DecidableEq, Repr

/-- `handleAllocateCL` (MonthlyActions.tsx lines 49-131), given the
`isAllocationComplete` flag, the selected month, the timestamp
`new Date().toISOString()` and the database.  On success it applies the
batched `casualLeaves` updates (only when `updatedCount > 0`, as in step
4) and then writes the allocation marker (step 5). -/
def handleAllocateCL (isAllocationComplete : Bool) (m now : String)
    (st : AllocState) : Option AllocError × AllocState :=
  if isAllocationComplete then
    (some AllocError.alreadyCompleted, st)
  else if st.faculty.isEmpty then
    (some AllocError.noFaculty, st)
  else
    let updatedCount := (st.faculty.filter (fun p => !(hasAbsence st.attendance m p.1))).length
    let withUpdates := st.faculty.map (fun p =>
      (p.1, if hasAbsence st.attendance m p.1 then p.2 else p.2 + 1))
    let facultyAfter := if updatedCount > 0 then withUpdates else st.faculty
    (none,
      { st with
          faculty := facultyAfter,
          monthlyAllocations :=
            setAssoc st.monthlyAllocations m ⟨true, now, updatedCount⟩ })

/-- One user-triggered allocation run for a month: the status check
(`checkStatus`) feeding the `isAllocationComplete` guard of
`handleAllocateCL`. -/
def allocate (m now : String) (st : AllocState) : Option AllocError × AllocState :=
  handleAllocateCL (checkStatus m st) m now st

/-- After a successful run, the faculty map is exactly the per-eligibility
bump of the original (the `updatedCount > 0` guard never changes the
result: with no eligible employee the batched update is empty). -/
theorem allocate_faculty_eq (m now : String) (st : AllocState)
    (h1 : checkStatus m st = false) (h2 : st.faculty.isEmpty = false) :
    (allocate m now st).2.faculty = st.faculty.map (fun p =>
      (p.1, if hasAbsence st.attendance m p.1 then p.2 else p.2 + 1)) := by
  unfold allocate handleAllocateCL
  rw [h1, h2]
  simp only [Bool.false_eq_true, if_false]
  by_cases hc :
      0 < (st.faculty.filter (fun p => !(hasAbsence st.attendance m p.1))).length
  · simp [hc]
  · simp only [hc, if_false]
    have hfil : st.faculty.filter (fun p => !(hasAbsence st.attendance m p.1)) = [] := by
      rcases hl : st.faculty.filter (fun p => !(hasAbsence st.attendance m p.1)) with _ | ⟨q, t⟩
      · exact hl
      · rw [hl] at hc
        simp at hc
    have hall : ∀ p ∈ st.faculty, hasAbsence st.attendance m p.1 = true := by
      intro p hp
      by_contra hfalse
      have : p ∈ st.faculty.filter (fun p => !(hasAbsence st.attendance m p.1)) := by
        rw [List.mem_filter]
        exact ⟨hp, by simp [Bool.not_eq_true] at hfalse ⊢; exact hfalse⟩
      rw [hfil] at this
      exact absurd this (List.not_mem_nil p)
    conv_lhs => rw [← List.map_id st.faculty]
    apply List.map_congr_left
    intro p hp
    simp [hall p hp]

/-- After a successful run, the marker for the month holds
`{completed := true, timestamp := now, updatedCount}`. -/
theorem allocate_marker (m now : String) (st : AllocState)
    (h1 : checkStatus m st = false) (h2 : st.faculty.isEmpty = false) :
    (allocate m now st).1 = none ∧
    lookupK (allocate m now st).2.monthlyAllocations m =
      some ⟨true, now,
        (st.faculty.filter (fun p => !(hasAbsence st.attendance m p.1))).length⟩ := by
  unfold allocate handleAllocateCL
  rw [h1, h2]
  simp only [Bool.false_eq_true, if_false]
  exact ⟨trivial, lookupK_setAssoc_self m _ st.monthlyAllocations⟩

/-- C1: if the allocation marker for month M is completed, `allocate(M)`
fails with AlreadyCompleted and performs zero writes (the state is returned
unchanged); in particular, after any successful `allocate(M)` a second
sequential call fails with AlreadyCompleted and leaves the state unchanged. -/
theorem c1_allocate_write_once (m now now2 : String) (st : AllocState) :
    (checkStatus m st = true →
      allocate m now st = (some AllocError.alreadyCompleted, st)) ∧
    ((allocate m now st).1 = none →
      allocate m now2 (allocate m now st).2 =
        (some AllocError.alreadyCompleted, (allocate m now st).2)) := by
  constructor
  · intro h
    unfold allocate handleAllocateCL
    rw [h]
    simp
  · intro h
    have h1 : checkStatus m st = false := by
      cases hcs : checkStatus m st
      · rfl
      · exfalso
        unfold allocate handleAllocateCL at h
        rw [hcs] at h
        simp at h
    have h2 : st.faculty.isEmpty = false := by
      cases hie : st.faculty.isEmpty
      · rfl
      · exfalso
        unfold allocate handleAllocateCL at h
        rw [h1, hie] at h
        simp at h
    have hmark := (allocate_marker m now st h1 h2).2
    have hcs2 : checkStatus m (allocate m now st).2 = true := by
      unfold checkStatus
      rw [hmark]
    show handleAllocateCL (checkStatus m (allocate m now st).2) m now2
        (allocate m now st).2 =
      (some AllocError.alreadyCompleted, (allocate m now st).2)
    rw [hcs2]
    simp [handleAllocateCL]

/-- Witness for C1 at concrete states: a locked month is refused
untouched, and a second run right after a successful one is refused
untouched. -/
theorem c1_allocate_write_once_witness :
    allocate "2024-01" "t1"
        (⟨[(1, 3)], [], [("2024-01", ⟨true, "t0", 1⟩)]⟩ : AllocState) =
      (some AllocError.alreadyCompleted,
        (⟨[(1, 3)], [], [("2024-01", ⟨true, "t0", 1⟩)]⟩ : AllocState)) ∧
    allocate "2024-01" "t2"
        (allocate "2024-01" "t1" (⟨[(1, 0)], [], []⟩ : AllocState)).2 =
      (some AllocError.alreadyCompleted,
        (allocate "2024-01" "t1" (⟨[(1, 0)], [], []⟩ : AllocState)).2) :=
  ⟨(c1_allocate_write_once "2024-01" "t1" "t2"
      (⟨[(1, 3)], [], [("2024-01", ⟨true, "t0", 1⟩)]⟩ : AllocState)).1 (by decide),
   (c1_allocate_write_once "2024-01" "t1" "t2"
      (⟨[(1, 0)], [], []⟩ : AllocState)).2 (by decide)⟩

/-- C2: when `allocate(M)` runs to completion on an unlocked month, an
employee with at least one Absent record in M keeps their casualLeaves
balance, and an employee with no Absent record in M has it incremented by
exactly 1. -/
theorem c2_allocation_eligibility (m now : String) (st : AllocState) (e : Nat)
    (h1 : checkStatus m st = false) (h2 : st.faculty.isEmpty = false) :
    (hasAbsence st.attendance m e = true →
      lookupK (allocate m now st).2.faculty e = lookupK st.faculty e) ∧
    (hasAbsence st.attendance m e = false →
      lookupK (allocate m now st).2.faculty e = (lookupK st.faculty e).map (· + 1)) := by
  rw [allocate_faculty_eq m now st h1 h2]
  rw [lookupK_map_keyed
    (fun a b => if hasAbsence st.attendance m a then b else b + 1) e st.faculty]
  constructor
  · intro h
    cases hl : lookupK st.faculty e <;> simp [h]
  · intro h
    cases hl : lookupK st.faculty e <;> simp [h]

/-- Witness for C2: employee 1 has an Absent record in 2024-01 and keeps
balance 5; employee 2 has none and goes from 7 to 8. -/
theorem c2_allocation_eligibility_witness :
    lookupK (allocate "2024-01" "t"
        (⟨[(1, 5), (2, 7)], [(1, [("2024-01-02", AttendanceStatus.absent)])], []⟩
          : AllocState)).2.faculty 1 = some 5 ∧
    lookupK (allocate "2024-01" "t"
        (⟨[(1, 5), (2, 7)], [(1, [("2024-01-02", AttendanceStatus.absent)])], []⟩
          : AllocState)).2.faculty 2 = some 8 := by
  refine ⟨?_, ?_⟩
  · rw [(c2_allocation_eligibility "2024-01" "t"
        (⟨[(1, 5), (2, 7)], [(1, [("2024-01-02", AttendanceStatus.absent)])], []⟩
          : AllocState) 1 (by decide) (by decide)).1 (by decide)]
    decide
  · rw [(c2_allocation_eligibility "2024-01" "t"
        (⟨[(1, 5), (2, 7)], [(1, [("2024-01-02", AttendanceStatus.absent)])], []⟩
          : AllocState) 2 (by decide) (by decide)).2 (by decide)]
    decide

/-- C9: a completed run on an unlocked month always writes the completion
marker `{completed := true, timestamp, updatedCount}`, even when
`updatedCount = 0`. -/
theorem c9_marker_always_written (m now : String) (st : AllocState)
    (h1 : checkStatus m st = false) (h2 : st.faculty.isEmpty = false) :
    (allocate m now st).1 = none ∧
    lookupK (allocate m now st).2.monthlyAllocations m =
      some ⟨true, now,
        (st.faculty.filter (fun p => !(hasAbsence st.attendance m p.1))).length⟩ :=
  allocate_marker m now st h1 h2

/-- Witness for C9 on an all-absent roster: no balance is eligible
(updatedCount = 0), yet the month ends locked with a completed marker. -/
theorem c9_marker_always_written_witness :
    (allocate "2024-01" "t"
        (⟨[(1, 2)], [(1, [("2024-01-03", AttendanceStatus.absent)])], []⟩
          : AllocState)).1 = none ∧
    lookupK (allocate "2024-01" "t"
        (⟨[(1, 2)], [(1, [("2024-01-03", AttendanceStatus.absent)])], []⟩
          : AllocState)).2.monthlyAllocations "2024-01" = some ⟨true, "t", 0⟩ := by
  have h := c9_marker_always_written "2024-01" "t"
    (⟨[(1, 2)], [(1, [("2024-01-03", AttendanceStatus.absent)])], []⟩
      : AllocState) (by decide) (by decide)
  refine ⟨h.1, ?_⟩
  rw [h.2]
  decide

/-! ### Monthly summary (src/hooks/useFacultyData.ts, useSummaryData) -/

/-- Holiday entry (`id = date`; the description field is display-only
passthrough and not read by any computation here). -/
structure Holiday where
  date : String
deriving DecidableEq, Repr

/-- Flattened attendance record as consumed by `calculateSummary`
(name/dept/inTime/leaveApplicationId are display passthroughs the
calculation never reads). -/
structure SumRecord where
  empId : Nat
  date : String
  status : AttendanceStatus
deriving DecidableEq, Repr

/-- Faculty fields read by the summary calculation
(`faculty.casualLeaves || 0` and `faculty.salary || 0` default the
missing values to 0; name/dept/designation are display passthroughs). -/
structure FacultyRec where
  empId : Nat
  salary : ℚ
  casualLeaves : Nat
deriving DecidableEq, Repr

/-- The derived, never persisted monthly summary row returned per
employee by `calculateSummary`. -/
structure MonthlySummary where
  empId : Nat
  monthlySalary : ℚ
  presentDays : Nat
  permissions : Nat
  halfDayLeaves : Nat
  casualLeavesAvailable : Nat
  casualLeavesUsed : Nat
  unpaidLeave : Nat
  totalLeaves : ℚ
  payableDays : ℚ
  calculatedSalary : ℚ
deriving DecidableEq, Repr

/-- `parseFloat(x.toFixed(2))`: rounding to two decimal places, modelled
exactly on ℚ (round half up, which is what toFixed does on the
nonnegative exactly-representable amounts arising here). -/
def round2 (q : ℚ) : ℚ := (⌊q * 100 + 1 / 2⌋ : ℚ) / 100

/-- In-month records of one employee: the `attendanceForMonth` filter of
`calculateSummary` followed by the `attendanceByEmp` grouping (grouping
the filtered list by empId and reading one bucket yields exactly that
employee's in-month records, in order). -/
def recordsFor (raw : List SumRecord) (m : String) (e : Nat) : List SumRecord :=
  (raw.filter (fun r => beginsWith r.date m)).filter (fun r => r.empId == e)

/-- `actualWorkingDays = Math.max(0, monthlyWorkingDays - holidaysInMonth)`
(truncated Nat subtraction is exactly that max). -/
def actualWorkingDays (monthlyWorkingDays : Nat) (holidays : List Holiday)
    (m : String) : Nat :=
  monthlyWorkingDays - (holidays.filter (fun h => beginsWith h.date m)).length

/-- Per-employee body of `calculateSummary` (useFacultyData.ts lines
388-429): present/absent split, casual-leave consumption, permission and
half-day conversion of lateness, pro-rated salary rounded to 2 decimals. -/
def calcRow (faculty : FacultyRec) (records : List SumRecord)
    (wd : Nat) (permissionLimit : Nat) : MonthlySummary :=
  let presentDays := (records.filter (fun r => r.status != AttendanceStatus.absent)).length
  let absentDays := wd - presentDays
  let casualLeavesAvailable := faculty.casualLeaves
  let casualLeavesUsed := min absentDays casualLeavesAvailable
  let unpaidLeave := absentDays - casualLeavesUsed
  let lateRecords := (records.filter (fun r => r.status == AttendanceStatus.late)).length
  let permissions := min lateRecords permissionLimit
  let halfDayLeaves := lateRecords - permissionLimit
  let totalLeaves : ℚ := unpaidLeave + halfDayLeaves * (1 / 2 : ℚ)
  let payableDays : ℚ := max 0 ((wd : ℚ) - totalLeaves)
  let calculatedSalary : ℚ :=
    if 0 < wd then payableDays / (wd : ℚ) * faculty.salary else 0
  ⟨faculty.empId, faculty.salary, presentDays, permissions, halfDayLeaves,
   casualLeavesAvailable, casualLeavesUsed, unpaidLeave, totalLeaves,
   payableDays, round2 calculatedSalary⟩

/-- `calculateSummary` (useFacultyData.ts lines 364-433): early return []
when the faculty list is empty or monthlyWorkingDays is not positive,
otherwise one `calcRow` per faculty member. -/
def calculateSummary (facultyList : List FacultyRec) (rawAttendance : List SumRecord)
    (holidays : List Holiday) (m : String) (monthlyWorkingDays : Nat)
    (permissionLimit : Nat) : List MonthlySummary :=
  if facultyList.isEmpty || monthlyWorkingDays == 0 then []
  else
    facultyList.map (fun f =>
      calcRow f (recordsFor rawAttendance m f.empId)
        (actualWorkingDays monthlyWorkingDays holidays m) permissionLimit)

theorem round2_zero : round2 0 = 0 := by norm_num [round2]

/-- C6: the summary row satisfies the spec's steps 4-11 (eligibility
counting, casual-leave consumption `min`/truncation, permission and
half-day conversion, pro-rated 2-decimal salary), and the two worked
scenarios hold: salary 3000, 20 working days, 15 present, 2 CLs gives
used 2, unpaid 3, total 3, payable 17, salary 2550.00; and 5 lates with
permission limit 2 give permissions 2, half-days 3, contributing 1.5 to
totalLeaves. -/
theorem c6_summary_formulas :
    (∀ (f : FacultyRec) (recs : List SumRecord) (wd pl : Nat),
      (calcRow f recs wd pl).presentDays =
        (recs.filter (fun r => r.status != AttendanceStatus.absent)).length ∧
      ((calcRow f recs wd pl).casualLeavesUsed : ℤ) =
        min (max 0 ((wd : ℤ) - ((calcRow f recs wd pl).presentDays : ℤ)))
          (f.casualLeaves : ℤ) ∧
      ((calcRow f recs wd pl).unpaidLeave : ℤ) =
        max 0 ((wd : ℤ) - ((calcRow f recs wd pl).presentDays : ℤ)) -
          ((calcRow f recs wd pl).casualLeavesUsed : ℤ) ∧
      (calcRow f recs wd pl).permissions =
        min ((recs.filter (fun r => r.status == AttendanceStatus.late)).length) pl ∧
      ((calcRow f recs wd pl).halfDayLeaves : ℤ) =
        max 0 (((recs.filter (fun r => r.status == AttendanceStatus.late)).length : ℤ)
          - (pl : ℤ)) ∧
      (calcRow f recs wd pl).totalLeaves =
        ((calcRow f recs wd pl).unpaidLeave : ℚ) +
          ((calcRow f recs wd pl).halfDayLeaves : ℚ) * (1 / 2) ∧
      (calcRow f recs wd pl).payableDays =
        max 0 ((wd : ℚ) - (calcRow f recs wd pl).totalLeaves) ∧
      (calcRow f recs wd pl).calculatedSalary =
        (if 0 < wd then
          round2 ((calcRow f recs wd pl).payableDays / (wd : ℚ) * f.salary)
         else 0)) ∧
    calcRow ⟨1, 3000, 2⟩
        (List.replicate 15 ⟨1, "2024-01-02", AttendanceStatus.onTime⟩) 20 2 =
      ⟨1, 3000, 15, 0, 0, 2, 2, 3, 3, 17, 2550⟩ ∧
    ((calcRow ⟨2, 1000, 0⟩
        (List.replicate 5 ⟨2, "2024-01-03", AttendanceStatus.late⟩) 20 2).permissions = 2 ∧
     (calcRow ⟨2, 1000, 0⟩
        (List.replicate 5 ⟨2, "2024-01-03", AttendanceStatus.late⟩) 20 2).halfDayLeaves = 3 ∧
     (calcRow ⟨2, 1000, 0⟩
          (List.replicate 5 ⟨2, "2024-01-03", AttendanceStatus.late⟩) 20 2).totalLeaves -
        ((calcRow ⟨2, 1000, 0⟩
          (List.replicate 5 ⟨2, "2024-01-03", AttendanceStatus.late⟩) 20 2).unpaidLeave : ℚ)
        = 3 / 2) := by
  refine ⟨?_, ?_, ?_, ?_, ?_⟩
  · intro f recs wd pl
    refine ⟨rfl, ?_, ?_, rfl, ?_, rfl, rfl, ?_⟩
    · simp only [calcRow]
      omega
    · simp only [calcRow]
      omega
    · simp only [calcRow]
      omega
    · simp only [calcRow]
      split_ifs with h
      · rfl
      · exact round2_zero
  · have hOA : AttendanceStatus.onTime ≠ AttendanceStatus.absent := by decide
    have hOL : AttendanceStatus.onTime = AttendanceStatus.late ↔ False := by decide
    norm_num [calcRow, List.filter_replicate, hOA, hOL, round2]
  · have hLL : AttendanceStatus.late = AttendanceStatus.late := rfl
    have hLA : AttendanceStatus.late ≠ AttendanceStatus.absent := by decide
    norm_num [calcRow, List.filter_replicate, hLL, hLA]
  · have hLA : AttendanceStatus.late ≠ AttendanceStatus.absent := by decide
    norm_num [calcRow, List.filter_replicate, hLA]
  · have hLA : AttendanceStatus.late ≠ AttendanceStatus.absent := by decide
    norm_num [calcRow, List.filter_replicate, hLA]

/-- C8: when every working day of the month is a holiday
(`actualWorkingDays = 0`), every summary row has calculatedSalary 0; the
pro-ration division sits under the `workingDays > 0` guard and is never
reached. -/
theorem c8_zero_working_days (fl : List FacultyRec) (raw : List SumRecord)
    (hol : List Holiday) (m : String) (mwd pl : Nat)
    (h : mwd ≤ (hol.filter (fun x => beginsWith x.date m)).length) :
    ∀ row ∈ calculateSummary fl raw hol m mwd pl, row.calculatedSalary = 0 := by
  intro row hrow
  unfold calculateSummary at hrow
  by_cases hg : (fl.isEmpty || mwd == 0) = true
  · rw [if_pos hg] at hrow
    exact absurd hrow (List.not_mem_nil row)
  · rw [if_neg hg] at hrow
    obtain ⟨f, hf, hrow⟩ := List.mem_map.mp hrow
    have hwd : actualWorkingDays mwd hol m = 0 := by
      unfold actualWorkingDays
      omega
    rw [← hrow, hwd]
    simp [calcRow, round2_zero]

/-- Witness for C8: a 2-day month fully covered by two holidays yields a
zero salary for the only faculty member. -/
theorem c8_zero_working_days_witness :
    (calcRow (⟨1, 100, 0⟩ : FacultyRec) (recordsFor [] "2024-02" 1)
      (actualWorkingDays 2 [⟨"2024-02-01"⟩, ⟨"2024-02-02"⟩] "2024-02")
      2).calculatedSalary = 0 := by
  refine c8_zero_working_days [⟨1, 100, 0⟩] [] [⟨"2024-02-01"⟩, ⟨"2024-02-02"⟩]
    "2024-02" 2 2 (by decide) _ ?_
  simp [calculateSummary]

/-- C10: an employee with zero attendance records in the month is treated
as eligible by the allocation (balance incremented by exactly 1, since
eligibility tests only for the presence of Absent records), while the
summary for the same month counts zero present days for them, so every
working day contributes to absence (consuming min(wd, casualLeaves) CLs
and leaving wd - min(wd, casualLeaves) unpaid days). -/
theorem c10_no_records_eligible (m now : String) (st : AllocState) (e : Nat)
    (h1 : checkStatus m st = false) (h2 : st.faculty.isEmpty = false)
    (h3 : ∀ p ∈ st.attendance, p.1 = e → p.2.filter (fun r => beginsWith r.1 m) = [])
    (raw : List SumRecord) (f : FacultyRec) (wd pl : Nat)
    (h4 : f.empId = e) (h5 : recordsFor raw m e = []) :
    lookupK (allocate m now st).2.faculty e = (lookupK st.faculty e).map (· + 1) ∧
    (calcRow f (recordsFor raw m f.empId) wd pl).presentDays = 0 ∧
    (calcRow f (recordsFor raw m f.empId) wd pl).casualLeavesUsed =
      min wd f.casualLeaves ∧
    (calcRow f (recordsFor raw m f.empId) wd pl).unpaidLeave =
      wd - min wd f.casualLeaves := by
  have habs : hasAbsence st.attendance m e = false := by
    by_contra hfalse
    rw [Bool.not_eq_false] at hfalse
    unfold hasAbsence at hfalse
    rw [List.any_eq_true] at hfalse
    obtain ⟨p, hp, hcond⟩ := hfalse
    rw [Bool.and_eq_true] at hcond
    obtain ⟨hpe, hrec⟩ := hcond
    rw [List.any_eq_true] at hrec
    obtain ⟨r, hr, hrcond⟩ := hrec
    rw [Bool.and_eq_true] at hrcond
    have hpe2 : p.1 = e := by simpa using hpe
    have hmem : r ∈ p.2.filter (fun r => beginsWith r.1 m) := by
      rw [List.mem_filter]
      exact ⟨hr, hrcond.1⟩
    rw [h3 p hp hpe2] at hmem
    exact absurd hmem (List.not_mem_nil r)
  refine ⟨?_, ?_⟩
  · rw [allocate_faculty_eq m now st h1 h2]
    rw [lookupK_map_keyed
      (fun a b => if hasAbsence st.attendance m a then b else b + 1) e st.faculty]
    cases hl : lookupK st.faculty e <;> simp [habs]
  · rw [h4, h5]
    refine ⟨rfl, ?_, ?_⟩ <;> simp [calcRow]

/-- Witness for C10: employee 4 has one record, outside the month; the
allocation bumps the balance 9 to 10, while the January summary sees 0
present days, uses both CLs against the 10 working days and leaves 8
unpaid. -/
theorem c10_no_records_eligible_witness :
    lookupK (allocate "2024-01" "t"
        (⟨[(4, 9)], [(4, [("2023-12-31", AttendanceStatus.absent)])], []⟩
          : AllocState)).2.faculty 4 = some 10 ∧
    (calcRow (⟨4, 500, 2⟩ : FacultyRec)
      (recordsFor [⟨4, "2023-12-31", AttendanceStatus.absent⟩] "2024-01" 4)
      10 2).presentDays = 0 ∧
    (calcRow (⟨4, 500, 2⟩ : FacultyRec)
      (recordsFor [⟨4, "2023-12-31", AttendanceStatus.absent⟩] "2024-01" 4)
      10 2).casualLeavesUsed = 2 ∧
    (calcRow (⟨4, 500, 2⟩ : FacultyRec)
      (recordsFor [⟨4, "2023-12-31", AttendanceStatus.absent⟩] "2024-01" 4)
      10 2).unpaidLeave = 8 := by
  have h := c10_no_records_eligible "2024-01" "t"
    (⟨[(4, 9)], [(4, [("2023-12-31", AttendanceStatus.absent)])], []⟩ : AllocState) 4
    (by decide) (by decide) (by decide)
    [⟨4, "2023-12-31", AttendanceStatus.absent⟩] (⟨4, 500, 2⟩ : FacultyRec) 10 2
    rfl (by decide)
  refine ⟨?_, h.2.1, ?_, ?_⟩
  · rw [h.1]
    decide
  · rw [h.2.2.1]
    decide
  · rw [h.2.2.2]
    decide

/-! ### Leave approval workflow (src/hooks/useLeaveApprovalData.ts and the
`deleteLeave` of src/unnamed/part_000).  Dates are UTC day numbers: the
source's `Date.UTC`-normalised while-loops advance exactly one calendar
day per step, and the "YYYY-MM-DD" record keys correspond bijectively. -/

inductive LeaveStatus
  | pending
  | approved
  | rejected
deriving DecidableEq, Repr

/-- Leave application as held in the hook's in-memory list
(submissionTimestamp is only used to sort the fetched list and is
omitted). -/
structure LeaveApp where
  id : String
  empId : Nat
  startDate : Nat
  endDate : Nat
  status : LeaveStatus
deriving DecidableEq, Repr

/-- Database slice touched by the leave workflow: the status stored at
`leaveApplications/{id}` (the only stored field these operations write or
these claims read) and the attendance records at
`attendance/{empId}/records/{date}`. -/
structure LeaveDb where
  leaveStatus : List (String × LeaveStatus)
  attendance : List (Nat × List (Nat × AttendanceStatus))
deriving DecidableEq, Repr

/-- One path-value pair of a multi-path `update(ref(db), updates)`
object: `leaveApplications/{id}/status = s`,
`leaveApplications/{id} = null`, or
`attendance/{empId}/records/{date} = null`. -/
inductive DbUpdate
  | setLeaveStatus (id : String) (s : LeaveStatus)
  | removeLeave (id : String)
  | removeAttendance (empId : Nat) (date : Nat)
deriving DecidableEq, Repr

/-- Effect of a single path write.  Setting a status creates the path when
absent (Firebase semantics); removing a path that is absent is a no-op. -/
def applyUpdate (d : LeaveDb) : DbUpdate → LeaveDb
  | DbUpdate.setLeaveStatus i s => { d with leaveStatus := setAssoc d.leaveStatus i s }
  | DbUpdate.removeLeave i =>
    { d with leaveStatus := d.leaveStatus.filter (fun p => p.1 != i) }
  | DbUpdate.removeAttendance e dt =>
    { d with attendance := d.attendance.map (fun p =>
        (p.1, if p.1 == e then p.2.filter (fun r => r.1 != dt) else p.2)) }

/-- One atomic multi-path `update(ref(db), updates)`. -/
def applyUpdates (u : List DbUpdate) (d : LeaveDb) : LeaveDb := u.foldl applyUpdate d

/-- The inclusive day range enumerated by `while (current <= last)`
stepping one day at a time: [s, s+1, ..., e], empty when e < s. -/
def dateRange (s e : Nat) : List Nat := (List.range (e + 1 - s)).map (s + ·)

/-- Joint lookup of `attendance/{e}/records/{d}`. -/
def lookupAtt (att : List (Nat × List (Nat × AttendanceStatus))) (e d : Nat) :
    Option AttendanceStatus :=
  match lookupK att e with
  | some recs => lookupK recs d
  | none => none

/-- Component state: the database plus the hook's in-memory
`leaveApplications` list (the target of optimistic updates and
rollbacks). -/
structure LeaveState where
  db : LeaveDb
  mem : List LeaveApp
deriving DecidableEq, Repr

/-- Failure modes of the workflow: the thrown
"Leave application not found." and a rejected store write (both surface
through the catch block after the snapshot rollback). -/
inductive LeaveError
  | notFound
  | writeFailed
deriving DecidableEq, Repr

/-- `approveLeave` (useLeaveApprovalData.ts lines 45-66): optimistic
in-memory flip, then a single-path `update(leaveRef, {status:"Approved"})`
with no existence check; `writeOk` says whether the store accepts the
write, and on failure the snapshot `originalApplications` is restored. -/
def approveLeave (leaveId : String) (writeOk : Bool) (st : LeaveState) :
    Option LeaveError × LeaveState :=
  let memOpt := st.mem.map (fun a =>
    if a.id == leaveId then { a with status := LeaveStatus.approved } else a)
  if writeOk then
    (none,
      { db := applyUpdates [DbUpdate.setLeaveStatus leaveId LeaveStatus.approved] st.db,
        mem := memOpt })
  else
    (some LeaveError.writeFailed, st)

/-- The `updates` object built by `rejectLeave`: the status write plus one
null per day of the inclusive date range. -/
def rejectUpdates (L : LeaveApp) : List DbUpdate :=
  DbUpdate.setLeaveStatus L.id LeaveStatus.rejected ::
    (dateRange L.startDate L.endDate).map (fun d => DbUpdate.removeAttendance L.empId d)

/-- `rejectLeave` (useLeaveApprovalData.ts lines 69-113): optimistic flip,
lookup of the application in the snapshot, then one multi-path update
carrying the status write and the per-date attendance deletions; a missing
id or a rejected write restores the snapshot and surfaces an error. -/
def rejectLeave (leaveId : String) (writeOk : Bool) (st : LeaveState) :
    Option LeaveError × LeaveState :=
  let memOpt := st.mem.map (fun a =>
    if a.id == leaveId then { a with status := LeaveStatus.rejected } else a)
  match st.mem.find? (fun a => a.id == leaveId) with
  | none => (some LeaveError.notFound, st)
  | some leaveApp =>
    if writeOk then
      (none, { db := applyUpdates (rejectUpdates leaveApp) st.db, mem := memOpt })
    else
      (some LeaveError.writeFailed, st)

/-- The `updates` object built by `deleteLeave` (part_000): removal of the
application plus one null per day of the range, keyed by the hook's
`empId` argument. -/
def deleteUpdates (empId : Nat) (leave : LeaveApp) : List DbUpdate :=
  DbUpdate.removeLeave leave.id ::
    (dateRange leave.startDate leave.endDate).map
      (fun d => DbUpdate.removeAttendance empId d)

/-- `deleteLeave` (part_000 lines 126-161): `if (!empId) return;` silently
does nothing for the falsy id 0; otherwise one multi-path update removes
the application and the date range (the subsequent `fetchData` re-read is
not modelled). -/
def deleteLeave (empId : Nat) (leave : LeaveApp) (writeOk : Bool)
    (st : LeaveState) : Option LeaveError × LeaveState :=
  if empId == 0 then (none, st)
  else if writeOk then
    (none, { st with db := applyUpdates (deleteUpdates empId leave) st.db })
  else
    (some LeaveError.writeFailed, st)

/-! ### Lemmas about multi-path updates -/

theorem applyUpdates_cons (u : DbUpdate) (us : List DbUpdate) (d : LeaveDb) :
    applyUpdates (u :: us) d = applyUpdates us (applyUpdate d u) := rfl

theorem dateRange_mem (s e d : Nat) (h1 : s ≤ d) (h2 : d ≤ e) : d ∈ dateRange s e := by
  unfold dateRange
  rw [List.mem_map]
  exact ⟨d - s, by rw [List.mem_range]; omega, by omega⟩

theorem dateRange_nil (s e : Nat) (h : e < s) : dateRange s e = [] := by
  unfold dateRange
  have h0 : e + 1 - s = 0 := by omega
  rw [h0]
  rfl

theorem lookupK_filter_ne {κ α : Type} [BEq κ] (k : κ) : ∀ l : List (κ × α),
    lookupK (l.filter (fun p => p.1 != k)) k = none := by
  intro l
  induction l with
  | nil => rfl
  | cons p t ih =>
    obtain ⟨a, b⟩ := p
    by_cases h : (a == k) = true
    · have hb : (((a, b) : κ × α).1 != k) = false := by simp [bne, h]
      simp [List.filter_cons, hb, ih]
    · have hb : (((a, b) : κ × α).1 != k) = true := by simp [bne, h]
      simp [List.filter_cons, hb, lookupK_cons, h, ih]

theorem lookupK_filter_none {κ α : Type} [BEq κ] (q : κ × α → Bool) (k : κ) :
    ∀ l : List (κ × α), lookupK l k = none → lookupK (l.filter q) k = none := by
  intro l
  induction l with
  | nil => intro h; exact h
  | cons p t ih =>
    obtain ⟨a, b⟩ := p
    intro h
    rw [lookupK_cons] at h
    by_cases ha : (a == k) = true
    · simp [ha] at h
    · rw [if_neg ha] at h
      by_cases hq : q (a, b) = true
      · simp [List.filter_cons, hq, lookupK_cons, ha, ih h]
      · simp [List.filter_cons, hq, ih h]

theorem lookupAtt_removeAtt_self (d0 : LeaveDb) (e d : Nat) :
    lookupAtt (applyUpdate d0 (DbUpdate.removeAttendance e d)).attendance e d = none := by
  unfold applyUpdate lookupAtt
  rw [lookupK_map_keyed
    (fun a recs => if a == e then recs.filter (fun r => r.1 != d) else recs) e d0.attendance]
  cases hl : lookupK d0.attendance e with
  | none => rfl
  | some recs =>
    show lookupK (if (e == e) = true then recs.filter (fun r => r.1 != d) else recs) d = none
    simp [lookupK_filter_ne]

theorem lookupAtt_removeAtt_none (d0 : LeaveDb) (e d e2 d2 : Nat)
    (h : lookupAtt d0.attendance e2 d2 = none) :
    lookupAtt (applyUpdate d0 (DbUpdate.removeAttendance e d)).attendance e2 d2 = none := by
  unfold applyUpdate lookupAtt
  unfold lookupAtt at h
  rw [lookupK_map_keyed
    (fun a recs => if a == e then recs.filter (fun r => r.1 != d) else recs) e2 d0.attendance]
  cases hl : lookupK d0.attendance e2 with
  | none => rfl
  | some recs =>
    rw [hl] at h
    show lookupK (if (e2 == e) = true then recs.filter (fun r => r.1 != d) else recs) d2 = none
    by_cases he : (e2 == e) = true
    · rw [if_pos he]
      exact lookupK_filter_none _ d2 recs h
    · rw [if_neg he]
      exact h

theorem lookupAtt_fold_preserve (e : Nat) : ∀ (ds : List Nat) (d0 : LeaveDb) (e2 d2 : Nat),
    lookupAtt d0.attendance e2 d2 = none →
    lookupAtt (applyUpdates (ds.map (fun x => DbUpdate.removeAttendance e x)) d0).attendance
      e2 d2 = none := by
  intro ds
  induction ds with
  | nil => intro d0 e2 d2 h; exact h
  | cons x t ih =>
    intro d0 e2 d2 h
    rw [List.map_cons, applyUpdates_cons]
    exact ih _ e2 d2 (lookupAtt_removeAtt_none d0 e x e2 d2 h)

theorem lookupAtt_fold_remove (e : Nat) : ∀ (ds : List Nat) (d0 : LeaveDb) (d : Nat),
    d ∈ ds →
    lookupAtt (applyUpdates (ds.map (fun x => DbUpdate.removeAttendance e x)) d0).attendance
      e d = none := by
  intro ds
  induction ds with
  | nil => intro d0 d hd; exact absurd hd (List.not_mem_nil d)
  | cons x t ih =>
    intro d0 d hd
    rw [List.map_cons, applyUpdates_cons]
    rcases List.mem_cons.mp hd with h | h
    · subst h
      exact lookupAtt_fold_preserve e t _ e d (lookupAtt_removeAtt_self d0 e d)
    · exact ih _ d h

theorem leaveStatus_fold_rm (e : Nat) : ∀ (ds : List Nat) (d0 : LeaveDb),
    (applyUpdates (ds.map (fun x => DbUpdate.removeAttendance e x)) d0).leaveStatus =
      d0.leaveStatus := by
  intro ds
  induction ds with
  | nil => intro d0; rfl
  | cons x t ih =>
    intro d0
    rw [List.map_cons, applyUpdates_cons, ih]
    rfl

theorem mem_reject_status (leaveId : String) : ∀ l : List LeaveApp,
    (l.find? (fun a => a.id == leaveId)).isSome = true →
    ((l.map (fun a =>
        if a.id == leaveId then { a with status := LeaveStatus.rejected } else a)).find?
      (fun a => a.id == leaveId)).map (·.status) = some LeaveStatus.rejected := by
  intro l
  induction l with
  | nil => intro h; simp [List.find?] at h
  | cons a t ih =>
    intro h
    by_cases ha : (a.id == leaveId) = true
    · rw [List.map_cons, if_pos ha, List.find?_cons_of_pos]
      · rfl
      · exact ha
    · rw [@List.find?_cons_of_neg _ (fun x => x.id == leaveId) a t ha] at h
      rw [List.map_cons, if_neg ha,
        @List.find?_cons_of_neg _ (fun x => x.id == leaveId) a _ ha]
      exact ih h

/-- C3: a successful `reject(L)` flips the application's status to
Rejected (in the store and in the in-memory list) and leaves no attendance
record for (L.empId, d) for any day d of the inclusive range
[startDate, endDate]; the status write and all per-date deletions form the
single multi-path update `rejectUpdates L`. -/
theorem c3_reject_clears_range (leaveId : String) (st : LeaveState) (L : LeaveApp)
    (hfind : st.mem.find? (fun a => a.id == leaveId) = some L)
    (hle : L.startDate ≤ L.endDate) :
    (rejectLeave leaveId true st).1 = none ∧
    (rejectLeave leaveId true st).2.db = applyUpdates (rejectUpdates L) st.db ∧
    lookupK (rejectLeave leaveId true st).2.db.leaveStatus L.id =
      some LeaveStatus.rejected ∧
    (∀ d : Nat, L.startDate ≤ d → d ≤ L.endDate →
      lookupAtt (rejectLeave leaveId true st).2.db.attendance L.empId d = none) ∧
    ((rejectLeave leaveId true st).2.mem.find? (fun a => a.id == leaveId)).map
      (·.status) = some LeaveStatus.rejected := by
  have hred : rejectLeave leaveId true st =
      (none,
        { db := applyUpdates (rejectUpdates L) st.db,
          mem := st.mem.map (fun a =>
            if a.id == leaveId then { a with status := LeaveStatus.rejected } else a) }) := by
    unfold rejectLeave
    rw [hfind]
    rfl
  rw [hred]
  refine ⟨rfl, rfl, ?_, ?_, ?_⟩
  · show lookupK (applyUpdates (rejectUpdates L) st.db).leaveStatus L.id = _
    unfold rejectUpdates
    rw [applyUpdates_cons, leaveStatus_fold_rm]
    exact lookupK_setAssoc_self L.id LeaveStatus.rejected _
  · intro d h1 h2
    show lookupAtt (applyUpdates (rejectUpdates L) st.db).attendance L.empId d = none
    unfold rejectUpdates
    rw [applyUpdates_cons]
    exact lookupAtt_fold_remove L.empId (dateRange L.startDate L.endDate) _ d
      (dateRange_mem _ _ _ h1 h2)
  · exact mem_reject_status leaveId st.mem (by rw [hfind]; rfl)

/-- Witness for C3: rejecting a 3-day leave deletes the three linked
records, keeps an unrelated record, and flips the status everywhere. -/
theorem c3_reject_clears_range_witness :
    (rejectLeave "l1" true
      (⟨⟨[("l1", LeaveStatus.pending)],
         [(7, [(10, AttendanceStatus.absent), (11, AttendanceStatus.absent),
               (12, AttendanceStatus.absent), (20, AttendanceStatus.onTime)])]⟩,
        [⟨"l1", 7, 10, 12, LeaveStatus.pending⟩]⟩ : LeaveState)).1 = none ∧
    lookupK (rejectLeave "l1" true
      (⟨⟨[("l1", LeaveStatus.pending)],
         [(7, [(10, AttendanceStatus.absent), (11, AttendanceStatus.absent),
               (12, AttendanceStatus.absent), (20, AttendanceStatus.onTime)])]⟩,
        [⟨"l1", 7, 10, 12, LeaveStatus.pending⟩]⟩ : LeaveState)).2.db.leaveStatus "l1" =
      some LeaveStatus.rejected ∧
    lookupAtt (rejectLeave "l1" true
      (⟨⟨[("l1", LeaveStatus.pending)],
         [(7, [(10, AttendanceStatus.absent), (11, AttendanceStatus.absent),
               (12, AttendanceStatus.absent), (20, AttendanceStatus.onTime)])]⟩,
        [⟨"l1", 7, 10, 12, LeaveStatus.pending⟩]⟩ : LeaveState)).2.db.attendance 7 11 =
      none := by
  have h := c3_reject_clears_range "l1"
    (⟨⟨[("l1", LeaveStatus.pending)],
       [(7, [(10, AttendanceStatus.absent), (11, AttendanceStatus.absent),
             (12, AttendanceStatus.absent), (20, AttendanceStatus.onTime)])]⟩,
      [⟨"l1", 7, 10, 12, LeaveStatus.pending⟩]⟩ : LeaveState)
    ⟨"l1", 7, 10, 12, LeaveStatus.pending⟩ (by decide) (by decide)
  exact ⟨h.1, h.2.2.1, h.2.2.2.1 11 (by decide) (by decide)⟩

/-- C4 counterexample: on a leave whose range is inverted (start 9, end
7), `reject` does not fail with InvalidRange before any write — it
succeeds, and the status write has happened; likewise `deleteLeave`
succeeds and the application is gone. -/
theorem c4_counterexample :
    (rejectLeave "l2" true
      (⟨⟨[("l2", LeaveStatus.pending)], [(3, [(9, AttendanceStatus.absent)])]⟩,
        [⟨"l2", 3, 9, 7, LeaveStatus.pending⟩]⟩ : LeaveState)).1 = none ∧
    lookupK (rejectLeave "l2" true
      (⟨⟨[("l2", LeaveStatus.pending)], [(3, [(9, AttendanceStatus.absent)])]⟩,
        [⟨"l2", 3, 9, 7, LeaveStatus.pending⟩]⟩ : LeaveState)).2.db.leaveStatus "l2" =
      some LeaveStatus.rejected ∧
    lookupK
      (⟨⟨[("l2", LeaveStatus.pending)], [(3, [(9, AttendanceStatus.absent)])]⟩,
        [⟨"l2", 3, 9, 7, LeaveStatus.pending⟩]⟩ : LeaveState).db.leaveStatus "l2" =
      some LeaveStatus.pending ∧
    (deleteLeave 3 ⟨"l2", 3, 9, 7, LeaveStatus.pending⟩ true
      (⟨⟨[("l2", LeaveStatus.pending)], [(3, [(9, AttendanceStatus.absent)])]⟩,
        [⟨"l2", 3, 9, 7, LeaveStatus.pending⟩]⟩ : LeaveState)).1 = none ∧
    lookupK (deleteLeave 3 ⟨"l2", 3, 9, 7, LeaveStatus.pending⟩ true
      (⟨⟨[("l2", LeaveStatus.pending)], [(3, [(9, AttendanceStatus.absent)])]⟩,
        [⟨"l2", 3, 9, 7, LeaveStatus.pending⟩]⟩ : LeaveState)).2.db.leaveStatus "l2" =
      none := by
  refine ⟨by decide, by decide, by decide, by decide, by decide⟩

/-- C4 amended: the code performs no range validation and has no
InvalidRange failure.  With endDate < startDate the enumerated range is
empty, so `reject` succeeds and writes only the Rejected status (zero
attendance deletions), and `deleteLeave` succeeds and only removes the
application (zero attendance deletions). -/
theorem c4_inverted_range_no_failure (st : LeaveState) (leaveId : String)
    (L : LeaveApp) (eid : Nat)
    (hfind : st.mem.find? (fun a => a.id == leaveId) = some L)
    (hinv : L.endDate < L.startDate) (heid : (eid == 0) = false) :
    (rejectLeave leaveId true st).1 = none ∧
    (rejectLeave leaveId true st).2.db.attendance = st.db.attendance ∧
    lookupK (rejectLeave leaveId true st).2.db.leaveStatus L.id =
      some LeaveStatus.rejected ∧
    (deleteLeave eid L true st).1 = none ∧
    (deleteLeave eid L true st).2.db.attendance = st.db.attendance ∧
    lookupK (deleteLeave eid L true st).2.db.leaveStatus L.id = none := by
  have hr : rejectUpdates L = [DbUpdate.setLeaveStatus L.id LeaveStatus.rejected] := by
    unfold rejectUpdates
    rw [dateRange_nil _ _ hinv]
    rfl
  have hd : deleteUpdates eid L = [DbUpdate.removeLeave L.id] := by
    unfold deleteUpdates
    rw [dateRange_nil _ _ hinv]
    rfl
  have hred : rejectLeave leaveId true st =
      (none,
        { db := applyUpdates (rejectUpdates L) st.db,
          mem := st.mem.map (fun a =>
            if a.id == leaveId then { a with status := LeaveStatus.rejected } else a) }) := by
    unfold rejectLeave
    rw [hfind]
    rfl
  have hdel : deleteLeave eid L true st =
      (none, { st with db := applyUpdates (deleteUpdates eid L) st.db }) := by
    unfold deleteLeave
    rw [heid]
    simp
  rw [hred, hdel, hr, hd]
  refine ⟨rfl, rfl, ?_, rfl, rfl, ?_⟩
  · exact lookupK_setAssoc_self L.id LeaveStatus.rejected _
  · exact lookupK_filter_ne L.id st.db.leaveStatus

/-- Witness for the amended C4 at a concrete inverted-range leave. -/
theorem c4_inverted_range_no_failure_witness :
    (rejectLeave "l3" true
      (⟨⟨[("l3", LeaveStatus.pending)], [(5, [(4, AttendanceStatus.absent)])]⟩,
        [⟨"l3", 5, 4, 2, LeaveStatus.pending⟩]⟩ : LeaveState)).2.db.attendance =
      [(5, [(4, AttendanceStatus.absent)])] ∧
    lookupK (rejectLeave "l3" true
      (⟨⟨[("l3", LeaveStatus.pending)], [(5, [(4, AttendanceStatus.absent)])]⟩,
        [⟨"l3", 5, 4, 2, LeaveStatus.pending⟩]⟩ : LeaveState)).2.db.leaveStatus "l3" =
      some LeaveStatus.rejected ∧
    (deleteLeave 5 ⟨"l3", 5, 4, 2, LeaveStatus.pending⟩ true
      (⟨⟨[("l3", LeaveStatus.pending)], [(5, [(4, AttendanceStatus.absent)])]⟩,
        [⟨"l3", 5, 4, 2, LeaveStatus.pending⟩]⟩ : LeaveState)).2.db.attendance =
      [(5, [(4, AttendanceStatus.absent)])] ∧
    lookupK (deleteLeave 5 ⟨"l3", 5, 4, 2, LeaveStatus.pending⟩ true
      (⟨⟨[("l3", LeaveStatus.pending)], [(5, [(4, AttendanceStatus.absent)])]⟩,
        [⟨"l3", 5, 4, 2, LeaveStatus.pending⟩]⟩ : LeaveState)).2.db.leaveStatus "l3" =
      none := by
  have h := c4_inverted_range_no_failure
    (⟨⟨[("l3", LeaveStatus.pending)], [(5, [(4, AttendanceStatus.absent)])]⟩,
      [⟨"l3", 5, 4, 2, LeaveStatus.pending⟩]⟩ : LeaveState) "l3"
    ⟨"l3", 5, 4, 2, LeaveStatus.pending⟩ 5 (by decide) (by decide) (by decide)
  exact ⟨h.2.1, h.2.2.1, h.2.2.2.2.1, h.2.2.2.2.2⟩

/-- C7 counterexample: `approve` on an id absent from both the store and
the in-memory list does not fail with NotFound — it succeeds, and the
single-path update creates a status entry at that id. -/
theorem c7_counterexample :
    (approveLeave "zz" true (⟨⟨[], []⟩, []⟩ : LeaveState)).1 = none ∧
    lookupK (approveLeave "zz" true
      (⟨⟨[], []⟩, []⟩ : LeaveState)).2.db.leaveStatus "zz" =
      some LeaveStatus.approved := by
  refine ⟨by decide, by decide⟩

/-- C7 amended: `approve` writes only the target application's status
(set to Approved; attendance and every other application untouched); it
performs no existence check, so an absent id still succeeds, creating the
status entry; only a rejected store write fails, and then the optimistic
in-memory flip is rolled back to the pre-operation snapshot (the state is
returned unchanged). -/
theorem c7_approve_only_status (leaveId : String) (st : LeaveState) :
    (approveLeave leaveId true st).1 = none ∧
    lookupK (approveLeave leaveId true st).2.db.leaveStatus leaveId =
      some LeaveStatus.approved ∧
    (approveLeave leaveId true st).2.db.attendance = st.db.attendance ∧
    (∀ j : String, j ≠ leaveId →
      lookupK (approveLeave leaveId true st).2.db.leaveStatus j =
        lookupK st.db.leaveStatus j) ∧
    approveLeave leaveId false st = (some LeaveError.writeFailed, st) := by
  refine ⟨rfl, ?_, rfl, ?_, rfl⟩
  · exact lookupK_setAssoc_self leaveId LeaveStatus.approved _
  · intro j hj
    exact lookupK_setAssoc_other leaveId j LeaveStatus.approved hj _

/-- Witness for the amended C7: approving "a" flips only "a" (entry "b"
keeps its status), and a failed write returns the untouched snapshot. -/
theorem c7_approve_only_status_witness :
    lookupK (approveLeave "a" true
      (⟨⟨[("a", LeaveStatus.pending), ("b", LeaveStatus.pending)], []⟩,
        [⟨"a", 1, 5, 6, LeaveStatus.pending⟩]⟩ : LeaveState)).2.db.leaveStatus "a" =
      some LeaveStatus.approved ∧
    lookupK (approveLeave "a" true
      (⟨⟨[("a", LeaveStatus.pending), ("b", LeaveStatus.pending)], []⟩,
        [⟨"a", 1, 5, 6, LeaveStatus.pending⟩]⟩ : LeaveState)).2.db.leaveStatus "b" =
      some LeaveStatus.pending ∧
    approveLeave "a" false
      (⟨⟨[("a", LeaveStatus.pending), ("b", LeaveStatus.pending)], []⟩,
        [⟨"a", 1, 5, 6, LeaveStatus.pending⟩]⟩ : LeaveState) =
      (some LeaveError.writeFailed,
        (⟨⟨[("a", LeaveStatus.pending), ("b", LeaveStatus.pending)], []⟩,
          [⟨"a", 1, 5, 6, LeaveStatus.pending⟩]⟩ : LeaveState)) := by
  have h := c7_approve_only_status "a"
    (⟨⟨[("a", LeaveStatus.pending), ("b", LeaveStatus.pending)], []⟩,
      [⟨"a", 1, 5, 6, LeaveStatus.pending⟩]⟩ : LeaveState)
  refine ⟨h.2.1, ?_, h.2.2.2.2⟩
  rw [h.2.2.2.1 "b" (by decide)]
  decide

/-! ### Finalize / casual-leave deduction
(src/hooks/useFacultyData.ts, finalizeAndDeductCLs, lines 479-515) -/

/-- Store faculty balances and the hook's in-memory facultyList balances
(empId to casualLeaves); Int because the raw subtraction
`casualLeavesAvailable - casualLeavesUsed` is applied as written. -/
structure FinState where
  dbFaculty : List (Nat × Int)
  memFaculty : List (Nat × Int)
deriving DecidableEq, Repr

/-- The thrown "No summary data to process.". -/
inductive FinError
  | noSummary
deriving DecidableEq, Repr

/-- The `updates` object built by `finalizeAndDeductCLs`: one absolute
balance write `faculty/{empId}/casualLeaves = casualLeavesAvailable -
casualLeavesUsed` per summary row with `casualLeavesUsed > 0`. -/
def finalizeUpdates (summaryData : List MonthlySummary) : List (Nat × Int) :=
  summaryData.filterMap (fun it =>
    if 0 < it.casualLeavesUsed then
      some (it.empId, (it.casualLeavesAvailable : Int) - (it.casualLeavesUsed : Int))
    else none)

/-- The per-entry in-memory adjustment of `setFacultyList`: find the
employee's summary row and, when it used casual leaves, decrement the
balance relatively by `casualLeavesUsed`. -/
def memDeduct (summaryData : List MonthlySummary) (e : Nat) (v : Int) : Int :=
  match summaryData.find? (fun s => s.empId == e) with
  | some s => if 0 < s.casualLeavesUsed then v - (s.casualLeavesUsed : Int) else v
  | none => v

/-- `finalizeAndDeductCLs`: throws with no summary data; returns early
with zero writes when no row used casual leaves; otherwise applies the
batched absolute store writes and the relative in-memory decrements. -/
def finalizeAndDeductCLs (summaryData : List MonthlySummary) (st : FinState) :
    Option FinError × FinState :=
  if summaryData.isEmpty then (some FinError.noSummary, st)
  else
    let updates := finalizeUpdates summaryData
    if updates.length == 0 then (none, st)
    else
      (none,
        { dbFaculty := updates.foldl (fun l p => setAssoc l p.1 p.2) st.dbFaculty,
          memFaculty := st.memFaculty.map (fun f => (f.1, memDeduct summaryData f.1 f.2)) })

/-- Value of the last write to a key in an updates batch (later entries of
a multi-path update object overwrite earlier ones at the same key). -/
def lookupLast {κ α : Type} [BEq κ] : List (κ × α) → κ → Option α
  | [], _ => none
  | p :: t, k =>
    match lookupLast t k with
    | some v => some v
    | none => if p.1 == k then some p.2 else none

theorem lookupK_foldl_setAssoc {κ α : Type} [BEq κ] [LawfulBEq κ] :
    ∀ (u : List (κ × α)) (l : List (κ × α)) (k : κ),
      lookupK (u.foldl (fun acc p => setAssoc acc p.1 p.2) l) k =
        match lookupLast u k with
        | some v => some v
        | none => lookupK l k := by
  intro u
  induction u with
  | nil => intro l k; rfl
  | cons p u ih =>
    intro l k
    rw [List.foldl_cons, ih]
    cases hu : lookupLast u k with
    | some v => simp [lookupLast, hu]
    | none =>
      by_cases hp : (p.1 == k) = true
      · have hpk : p.1 = k := by simpa using hp
        subst hpk
        simp [lookupLast, hu, hp, lookupK_setAssoc_self]
      · have hpk : k ≠ p.1 := by
          intro hkp
          exact hp (by simp [hkp])
        simp [lookupLast, hu, hp, lookupK_setAssoc_other p.1 k p.2 hpk l]

/-- Applying the same batch of absolute writes twice gives the same
balances as applying it once. -/
theorem lookupK_foldl_setAssoc_idem {κ α : Type} [BEq κ] [LawfulBEq κ]
    (u : List (κ × α)) (l : List (κ × α)) (k : κ) :
    lookupK (u.foldl (fun acc p => setAssoc acc p.1 p.2)
        (u.foldl (fun acc p => setAssoc acc p.1 p.2) l)) k =
      lookupK (u.foldl (fun acc p => setAssoc acc p.1 p.2) l) k := by
  rw [lookupK_foldl_setAssoc, lookupK_foldl_setAssoc]
  cases hu : lookupLast u k with
  | some v => rfl
  | none => rfl

theorem fin_empty (s : List MonthlySummary) (st : FinState) (h : s.isEmpty = true) :
    finalizeAndDeductCLs s st = (some FinError.noSummary, st) := by
  simp [finalizeAndDeductCLs, h]

theorem fin_noop (s : List MonthlySummary) (st : FinState) (h1 : s.isEmpty = false)
    (h2 : ((finalizeUpdates s).length == 0) = true) :
    finalizeAndDeductCLs s st = (none, st) := by
  simp [finalizeAndDeductCLs, h1, h2]

theorem fin_main (s : List MonthlySummary) (st : FinState) (h1 : s.isEmpty = false)
    (h2 : ((finalizeUpdates s).length == 0) = false) :
    finalizeAndDeductCLs s st =
      (none,
        { dbFaculty := (finalizeUpdates s).foldl (fun l p => setAssoc l p.1 p.2) st.dbFaculty,
          memFaculty := st.memFaculty.map (fun f => (f.1, memDeduct s f.1 f.2)) }) := by
  simp [finalizeAndDeductCLs, h1, h2]

/-- C5 counterexample: employee 1 with casualLeavesAvailable 5 and
casualLeavesUsed 2 > 0; after two sequential `finalize` calls on the same
summary the stored balance is 3 = available - used (the second call
re-writes the same absolute value), not available - 2*used = 1. -/
theorem c5_counterexample :
    lookupK (finalizeAndDeductCLs
        [(⟨1, 0, 0, 0, 0, 5, 2, 0, 0, 0, 0⟩ : MonthlySummary)]
        (finalizeAndDeductCLs
          [(⟨1, 0, 0, 0, 0, 5, 2, 0, 0, 0, 0⟩ : MonthlySummary)]
          (⟨[(1, 5)], [(1, 5)]⟩ : FinState)).2).2.dbFaculty 1 = some 3 ∧
    (3 : Int) ≠ 5 - 2 * 2 := by
  refine ⟨by decide, by decide⟩

/-- C5 amended: with the same summary, `finalize` is idempotent on the
stored balances — the batched write stores the absolute value
`casualLeavesAvailable - casualLeavesUsed` recomputed from the summary
alone, so a second sequential call leaves every stored balance as after
the first.  The double deduction occurs only in the optimistic in-memory
faculty list, whose balance is decremented relatively each call and ends
at its pre-operation value minus 2 * casualLeavesUsed. -/
theorem c5_store_idempotent_mem_double (s : List MonthlySummary) (st : FinState) :
    (∀ e : Nat,
      lookupK (finalizeAndDeductCLs s
          (finalizeAndDeductCLs s st).2).2.dbFaculty e =
        lookupK (finalizeAndDeductCLs s st).2.dbFaculty e) ∧
    (∀ (e : Nat) (v : Int) (it : MonthlySummary),
      s.find? (fun x => x.empId == e) = some it →
      0 < it.casualLeavesUsed →
      lookupK st.memFaculty e = some v →
      lookupK (finalizeAndDeductCLs s
          (finalizeAndDeductCLs s st).2).2.memFaculty e =
        some (v - 2 * (it.casualLeavesUsed : Int))) := by
  by_cases h1 : s.isEmpty = true
  · have hst : (finalizeAndDeductCLs s st).2 = st := by rw [fin_empty s st h1]
    constructor
    · intro e
      rw [hst, hst]
    · intro e v it hf hu hm
      have hnil : s = [] := List.isEmpty_iff.mp h1
      rw [hnil] at hf
      exact absurd hf (by simp [List.find?])
  · have h1f : s.isEmpty = false := by
      cases hie : s.isEmpty
      · rfl
      · exact absurd hie h1
    by_cases h2 : ((finalizeUpdates s).length == 0) = true
    · have hst : (finalizeAndDeductCLs s st).2 = st := by rw [fin_noop s st h1f h2]
      constructor
      · intro e
        rw [hst, hst]
      · intro e v it hf hu hm
        have hmem : it ∈ s := List.mem_of_find?_eq_some hf
        have hin : (it.empId, (it.casualLeavesAvailable : Int) -
            (it.casualLeavesUsed : Int)) ∈ finalizeUpdates s := by
          unfold finalizeUpdates
          rw [List.mem_filterMap]
          exact ⟨it, hmem, by rw [if_pos hu]⟩
        have hlen : (finalizeUpdates s).length = 0 := by simpa using h2
        rw [List.length_eq_zero.mp hlen] at hin
        exact absurd hin (List.not_mem_nil _)
    · have h2f : ((finalizeUpdates s).length == 0) = false := by
        cases hl2 : ((finalizeUpdates s).length == 0)
        · rfl
        · exact absurd hl2 h2
      have hmain1 := fin_main s st h1f h2f
      constructor
      · intro e
        rw [hmain1]
        rw [fin_main s _ h1f h2f]
        exact lookupK_foldl_setAssoc_idem (finalizeUpdates s) st.dbFaculty e
      · intro e v it hf hu hm
        rw [hmain1]
        rw [fin_main s _ h1f h2f]
        show lookupK ((st.memFaculty.map (fun f => (f.1, memDeduct s f.1 f.2))).map
          (fun f => (f.1, memDeduct s f.1 f.2))) e = _
        rw [lookupK_map_keyed (memDeduct s) e, lookupK_map_keyed (memDeduct s) e, hm]
        have hd : ∀ w : Int, memDeduct s e w = w - (it.casualLeavesUsed : Int) := by
          intro w
          unfold memDeduct
          rw [hf]
          show (if 0 < it.casualLeavesUsed then w - (it.casualLeavesUsed : Int) else w) =
            w - (it.casualLeavesUsed : Int)
          rw [if_pos hu]
        show some (memDeduct s e (memDeduct s e v)) =
          some (v - 2 * (it.casualLeavesUsed : Int))
        rw [hd, hd]
        congr 1
        ring

/-- Witness for the amended C5: stored balance stays 3 after the second
call; the in-memory balance ends at 1 = 5 - 2*2. -/
theorem c5_store_idempotent_mem_double_witness :
    lookupK (finalizeAndDeductCLs
        [(⟨1, 0, 0, 0, 0, 5, 2, 0, 0, 0, 0⟩ : MonthlySummary)]
        (finalizeAndDeductCLs
          [(⟨1, 0, 0, 0, 0, 5, 2, 0, 0, 0, 0⟩ : MonthlySummary)]
          (⟨[(1, 5)], [(1, 5)]⟩ : FinState)).2).2.memFaculty 1 = some 1 ∧
    lookupK (finalizeAndDeductCLs
        [(⟨1, 0, 0, 0, 0, 5, 2, 0, 0, 0, 0⟩ : MonthlySummary)]
        (finalizeAndDeductCLs
          [(⟨1, 0, 0, 0, 0, 5, 2, 0, 0, 0, 0⟩ : MonthlySummary)]
          (⟨[(1, 5)], [(1, 5)]⟩ : FinState)).2).2.dbFaculty 1 =
      lookupK (finalizeAndDeductCLs
        [(⟨1, 0, 0, 0, 0, 5, 2, 0, 0, 0, 0⟩ : MonthlySummary)]
        (⟨[(1, 5)], [(1, 5)]⟩ : FinState)).2.dbFaculty 1 := by
  have h := c5_store_idempotent_mem_double
    [(⟨1, 0, 0, 0, 0, 5, 2, 0, 0, 0, 0⟩ : MonthlySummary)]
    (⟨[(1, 5)], [(1, 5)]⟩ : FinState)
  refine ⟨?_, h.1 1⟩
  rw [h.2 1 5 (⟨1, 0, 0, 0, 0, 5, 2, 0, 0, 0, 0⟩ : MonthlySummary) rfl
    (by decide) rfl]
  decide
